import Mathlib

/-!
Shallow embedding of the real-time speech segmentation and audio framing
pipeline of `app/api/call_handler.py` (with the collaborator behaviour of
`app/services/sarvam_service.py`), together with theorems settling the
frozen claims about it.

Conventions:
* Python `time.time() * 1000` timestamps and the float duration arithmetic
  are modelled over `ℚ` (the arithmetic involved is exact in both).
* Byte strings are `List Nat` (each entry one byte); 16-bit PCM samples
  are `Int`.
* The per-connection dictionaries (`audio_buffers`, `speech_states`,
  `processing_locks`) become the fields of one `ConnState`, since every
  claim concerns a single connection, and the empty state dict `{}` is
  `none`.
* External services are parameterised by a `PipelineEnv` record holding the
  value each call would return.  The service wrappers in
  `sarvam_service.py` catch their own exceptions and return fallback
  values, which is reflected in the types: speech-to-text failure or
  no-speech is `(none, none)`, chat failure still returns a string (an
  apology text), translation failure returns the input text, and
  text-to-speech failure returns `none`.
* The mu-law codec is the byte-for-byte embedding of CPython's `audioop.c`
  (`st_ulaw2linear16` / `st_14linear2ulaw`, used by `audioop.ulaw2lin` and
  `audioop.lin2ulaw` at width 2, where the sample is arithmetically
  shifted right by 2 before encoding).
* The WAV container functions model Python's `wave` module writing and
  reading the canonical 44-byte RIFF/WAVE header it produces for the
  parameters used by `convert_audio` / `convert_to_mulaw`.
-/

/-- Constant from `call_handler.py` line 36 (RMS threshold of `is_silence`). -/
def SILENCE_THRESHOLD : Nat := 200

/-- Constant from `call_handler.py` line 37. -/
def MIN_SPEECH_DURATION_MS : ℚ := 1000

/-- Constant from `call_handler.py` line 38. -/
def MAX_SPEECH_DURATION_MS : ℚ := 15000

/-- Constant from `call_handler.py` line 39. -/
def SILENCE_DURATION_MS : ℚ := 1000

/-- Constant from `call_handler.py` line 40. -/
def SAMPLES_PER_MS : ℚ := 8

/-- Python's `str.strip()`: remove leading and trailing whitespace. -/
def pyStrip (s : String) : String :=
  ⟨((s.data.dropWhile Char.isWhitespace).reverse.dropWhile Char.isWhitespace).reverse⟩

/-- `speech_states[connection_id]` when non-empty: both keys are always set
together (lines 295-301 of `call_handler.py`). -/
structure SpeechState where
  speechStart : ℚ
  lastSpeech : ℚ
deriving Repr, DecidableEq

/-- Per-connection mutable state: `audio_buffers[id]`, `speech_states[id]`
(the empty dict is `none`), `processing_locks[id]`. -/
structure ConnState where
  buffer : List (List Nat)
  speech : Option SpeechState
  lock : Bool
deriving Repr, DecidableEq

/-- `get_audio_duration_ms` (lines 51-54): `(total_bytes / 2) / SAMPLES_PER_MS`. -/
def get_audio_duration_ms (audioData : List (List Nat)) : ℚ :=
  let totalBytes := (audioData.map List.length).sum
  ((totalBytes : ℚ) / 2) / SAMPLES_PER_MS

/-- `should_process_speech` (lines 75-97); the current time stands for
`time.time() * 1000`.  A present state dict always carries both keys, so
the `state.get(..., current_time)` defaults never fire. -/
def should_process_speech (state : Option SpeechState) (currentTime : ℚ) : Bool :=
  match state with
  | none => false
  | some s =>
    let speechDuration := currentTime - s.speechStart
    let silenceDuration := currentTime - s.lastSpeech
    if speechDuration ≥ MIN_SPEECH_DURATION_MS then
      if silenceDuration ≥ SILENCE_DURATION_MS ∨ speechDuration ≥ MAX_SPEECH_DURATION_MS then
        true
      else
        false
    else
      false

/-- `st_ulaw2linear16` from CPython `audioop.c`: decode one mu-law byte to
a signed 16-bit sample.  `uval = ~b` (8-bit), `t = ((uval & 0xF) << 3) + 0x84`,
`t <<= (uval & 0x70) >> 4`, sign by bit 7. -/
def st_ulaw2linear16 (b : Nat) : Int :=
  let uval := 255 - b % 256
  let t0 : Int := ((uval % 16) * 8 : Nat) + 0x84
  let t : Int := t0 * (2 ^ ((uval / 16) % 8))
  if uval ≥ 128 then 0x84 - t else t - 0x84

/-- Segment end table `seg_uend` from `audioop.c`. -/
def seg_uend : List Int := [0x3F, 0x7F, 0xFF, 0x1FF, 0x3FF, 0x7FF, 0xFFF, 0x1FFF]

/-- `search(val, seg_uend, 8)` from `audioop.c`: index of the first table
entry that is at least `val`, or 8. -/
def searchSeg (val : Int) : Nat :=
  (seg_uend.findIdx? (fun bound => val ≤ bound)).getD 8

/-- `st_14linear2ulaw` from `audioop.c`: encode a 14-bit linear sample to
one mu-law byte (CLIP = 8159, bias 33, complemented output). -/
def st_14linear2ulaw (pcmVal : Int) : Nat :=
  let mask : Nat := if pcmVal < 0 then 0x7F else 0xFF
  let p0 : Int := if pcmVal < 0 then -pcmVal else pcmVal
  let p1 : Int := if p0 > 8159 then 8159 else p0
  let p : Int := p1 + 33
  let seg := searchSeg p
  if seg ≥ 8 then 0x7F ^^^ mask
  else ((seg * 16) ||| ((p.toNat >>> (seg + 1)) % 16)) ^^^ mask

/-- One sample of `audioop.ulaw2lin(data, 2)`. -/
def decodeMuLawSample (b : Nat) : Int := st_ulaw2linear16 b

/-- One sample of `audioop.lin2ulaw(data, 2)`: the 16-bit sample is
arithmetically shifted right by 2 (`GETSAMPLE32 >> 18`) and passed to
`st_14linear2ulaw`.  The arithmetic shift is floor division by 4. -/
def encodeMuLawSample (s : Int) : Nat := st_14linear2ulaw (Int.fdiv s 4)

/-- `audioop.ulaw2lin` over a whole mu-law byte string. -/
def ulaw2lin (bs : List Nat) : List Int := bs.map decodeMuLawSample

/-- `audioop.lin2ulaw` over a whole 16-bit sample sequence. -/
def lin2ulaw (samples : List Int) : List Nat := samples.map encodeMuLawSample

/-- Serialise 16-bit samples to little-endian byte pairs (the layout of the
PCM payload written by `wave.writeframes`). -/
def samplesToBytes : List Int → List Nat
  | [] => []
  | s :: rest =>
    let u := (s % 65536).toNat
    u % 256 :: u / 256 :: samplesToBytes rest

/-- Parse little-endian byte pairs back to signed 16-bit samples. -/
def bytesToSamples : List Nat → List Int
  | b0 :: b1 :: rest =>
    let u := b0 + 256 * b1
    (if 32768 ≤ u then (u : Int) - 65536 else (u : Int)) :: bytesToSamples rest
  | _ => []

/-- Two-byte little-endian encoding of a header field. -/
def le2 (n : Nat) : List Nat := [n % 256, n / 256 % 256]

/-- Four-byte little-endian encoding of a header field. -/
def le4 (n : Nat) : List Nat :=
  [n % 256, n / 256 % 256, n / 65536 % 256, n / 16777216 % 256]

/-- The WAV container produced by `convert_audio`'s use of the `wave`
module (lines 63-70): canonical RIFF header (`RIFF`, size, `WAVE`,
`fmt ` chunk of 16 bytes with PCM tag 1, then the `data` chunk). -/
def wrapAsWav (pcm : List Int) (nchannels sampwidth framerate : Nat) : List Nat :=
  let data := samplesToBytes pcm
  let dataLen := data.length
  [82, 73, 70, 70] ++ le4 (36 + dataLen) ++ [87, 65, 86, 69] ++
  [102, 109, 116, 32] ++ le4 16 ++ le2 1 ++ le2 nchannels ++ le4 framerate ++
  le4 (framerate * nchannels * sampwidth) ++ le2 (nchannels * sampwidth) ++
  le2 (sampwidth * 8) ++ [100, 97, 116, 97] ++ le4 dataLen ++ data

/-- Read one two-byte little-endian field. -/
def read2 : List Nat → Option (Nat × List Nat)
  | a :: b :: rest => some (a + 256 * b, rest)
  | _ => none

/-- Read one four-byte little-endian field. -/
def read4 : List Nat → Option (Nat × List Nat)
  | a :: b :: c :: d :: rest => some (a + 256 * b + 65536 * c + 16777216 * d, rest)
  | _ => none

/-- Consume an expected literal byte sequence (chunk magic). -/
def expectBytes : List Nat → List Nat → Option (List Nat)
  | [], bs => some bs
  | p :: ps, b :: bs => if b = p then expectBytes ps bs else none
  | _ :: _, [] => none

/-- The WAV parsing performed by `convert_to_mulaw`'s use of the `wave`
module (lines 103-109): parse the canonical header, reject a malformed one
(`none`), read `nchannels`, `framerate`, `sampwidth = bits / 8`, and return
`readframes(getnframes())` where `getnframes = dataLen / frameSize`,
decoded to 16-bit samples. -/
def unwrapWav (bs : List Nat) : Option (List Int × Nat × Nat × Nat) := do
  let bs ← expectBytes [82, 73, 70, 70] bs
  let (_riffSize, bs) ← read4 bs
  let bs ← expectBytes [87, 65, 86, 69] bs
  let bs ← expectBytes [102, 109, 116, 32] bs
  let (fmtSize, bs) ← read4 bs
  let (fmtTag, bs) ← read2 bs
  if fmtSize ≠ 16 ∨ fmtTag ≠ 1 then none else do
  let (nchannels, bs) ← read2 bs
  let (framerate, bs) ← read4 bs
  let (_byteRate, bs) ← read4 bs
  let (_blockAlign, bs) ← read2 bs
  let (bits, bs) ← read2 bs
  let sampwidth := bits / 8
  let bs ← expectBytes [100, 97, 116, 97] bs
  let (dataLen, bs) ← read4 bs
  if nchannels = 0 ∨ sampwidth = 0 then none else
  let nframes := dataLen / (nchannels * sampwidth)
  some (bytesToSamples (bs.take (nframes * nchannels * sampwidth)),
        nchannels, sampwidth, framerate)

/-- `convert_audio` (lines 56-73): decode each mu-law chunk to PCM, join,
wrap as mono 16-bit 8 kHz WAV. -/
def convert_audio (audioData : List (List Nat)) : List Nat :=
  let pcmData := (audioData.map (fun chunk => chunk.map decodeMuLawSample)).flatten
  wrapAsWav pcmData 1 2 8000

/-- The chunking loop of `process_audio` (lines 222-224):
`for i in range(0, len(mu_law_audio), chunk_size)` slicing 640-byte pieces.
Written with explicit fuel so the recursion is structural; each step
consumes at least one byte, so `bs.length` steps always suffice. -/
def chunkLoop : Nat → List Nat → List (List Nat)
  | 0, _ => []
  | _, [] => []
  | fuel + 1, bs => bs.take 640 :: chunkLoop fuel (bs.drop 640)

/-- OutboundFramer: the ordered 640-byte frames sent at lines 222-234. -/
def outboundChunks (bs : List Nat) : List (List Nat) :=
  chunkLoop bs.length bs

/-- The identities of the external calls made inside `process_audio`. -/
inductive ExtCall
  | transcribe
  | chat
  | translate
  | tts
deriving Repr, DecidableEq

/-- The behaviour of the outside world during one `process_audio` run:
what each external call would return, whether the local conversion steps
raise, and whether the websocket is still registered.
`transcribeResult` is the `(transcript, language_code)` pair returned by
`transcribe_and_translate_audio` (which returns `(None, None)` on API
failure or when no speech is detected); `chatResult` is the string from
`get_openai_response` (an apology text on failure); `translateResult` the
string from `translate_text` (the input text on failure); `ttsResult` the
optional base64 audio from `text_to_speech` (`none` on failure);
`convertOk` is whether `convert_audio` and the debug file write at lines
151-157 succeed; `responseOk` whether the base64 decode, debug writes and
`convert_to_mulaw` at lines 200-216 succeed; `responseMulaw` the mu-law
bytes that conversion yields. -/
structure PipelineEnv where
  convertOk : Bool
  transcribeResult : Option String × Option String
  chatResult : String
  translateResult : String
  ttsResult : Option String
  wsConnected : Bool
  responseOk : Bool
  responseMulaw : List Nat
deriving Repr, DecidableEq

/-- Outcome of one `process_audio` invocation: the connection state after
the `finally` block, whether the guard was acquired (line 137 reached),
the external calls made in order, the text handed to `text_to_speech`,
and the outbound frames sent. -/
structure PAResult where
  state : ConnState
  acquired : Bool
  calls : List ExtCall
  ttsText : Option String
  frames : List (List Nat)
deriving Repr, DecidableEq

/-- Lines 160-246 of `process_audio`, reached after the WAV conversion and
debug save succeeded: buffer and speech state are cleared (160-162) —
beyond this point the connection state no longer depends on the prior
buffer — the transcription call and the emptiness test run (166-170), then
the chat call (175), the translate decision of line 179
(`original_language != "en-IN" or original_language is not None`), the
text-to-speech call (192), and the response handling guarded by
`response_audio and websocket in active_connections.values()` (197), whose
local failures are swallowed at 241-242, ending in the 640-byte chunked
send (222-234). -/
def pipelineTail (env : PipelineEnv) : PAResult :=
  match env.transcribeResult with
  | (some englishText, originalLanguage) =>
    if pyStrip englishText ≠ "" then
      let englishResponse := env.chatResult
      let translateCalled : Bool :=
        decide (originalLanguage ≠ some "en-IN") || decide (originalLanguage ≠ none)
      let translatedResponse :=
        if translateCalled then env.translateResult else englishResponse
      let calls :=
        [ExtCall.transcribe, ExtCall.chat] ++
        (if translateCalled then [ExtCall.translate] else []) ++ [ExtCall.tts]
      match env.ttsResult with
      | some _ =>
        if env.wsConnected then
          if env.responseOk then
            ⟨⟨[], none, false⟩, true, calls, some translatedResponse,
              outboundChunks env.responseMulaw⟩
          else
            ⟨⟨[], none, false⟩, true, calls, some translatedResponse, []⟩
        else
          ⟨⟨[], none, false⟩, true, calls, some translatedResponse, []⟩
      | none =>
        ⟨⟨[], none, false⟩, true, calls, some translatedResponse, []⟩
    else
      ⟨⟨[], none, false⟩, true, [ExtCall.transcribe], none, []⟩
  | (none, _) =>
    ⟨⟨[], none, false⟩, true, [ExtCall.transcribe], none, []⟩

/-- `process_audio` (lines 130-259), step for step:
check of `processing_locks` (132), acquisition (137), empty-buffer and
minimum-duration early returns (140-145), WAV conversion and debug save
(149-158, abstracted by `convertOk`; their failure is handled at 248-253,
which clears the buffer only at or above the 15 s cap), then the cleared
pipeline run `pipelineTail`.  The lock is released in `finally` (259) on
every path past line 137. -/
def processAudio (st : ConnState) (env : PipelineEnv) : PAResult :=
  if st.lock then ⟨st, false, [], none, []⟩
  else
    let buffer := st.buffer
    if buffer.isEmpty then ⟨⟨buffer, st.speech, false⟩, true, [], none, []⟩
    else
      let durationMs := get_audio_duration_ms buffer
      if durationMs < MIN_SPEECH_DURATION_MS then
        ⟨⟨buffer, st.speech, false⟩, true, [], none, []⟩
      else
        if env.convertOk = false then
          if durationMs ≥ MAX_SPEECH_DURATION_MS then
            ⟨⟨[], none, false⟩, true, [], none, []⟩
          else
            ⟨⟨buffer, st.speech, false⟩, true, [], none, []⟩
        else
          pipelineTail env

/-- One `"media"` event of `handle_media_stream` (lines 282-318): silence
classification is passed in (`is_silence` computes an RMS over the decoded
frame), the speech state is created or refreshed on a voiced frame, the
frame is buffered unless the connection is idle and silent, and
`process_audio` runs exactly when `should_process_speech` says so. -/
def handleMediaFrame (st : ConnState) (chunk : List Nat) (isSilent : Bool)
    (now : ℚ) (env : PipelineEnv) : PAResult :=
  if isSilent = false then
    let newSpeech : SpeechState :=
      match st.speech with
      | none => ⟨now, now⟩
      | some s => ⟨s.speechStart, now⟩
    let st1 : ConnState := ⟨st.buffer ++ [chunk], some newSpeech, st.lock⟩
    if should_process_speech st1.speech now then processAudio st1 env
    else ⟨st1, false, [], none, []⟩
  else
    match st.speech with
    | some _ =>
      let st1 : ConnState := ⟨st.buffer ++ [chunk], st.speech, st.lock⟩
      if should_process_speech st1.speech now then processAudio st1 env
      else ⟨st1, false, [], none, []⟩
    | none => ⟨st, false, [], none, []⟩

/-- The `"stop"` event of `handle_media_stream` (lines 322-326):
`process_audio` is invoked on any non-empty buffer, without consulting
`should_process_speech`. -/
def handleStop (st : ConnState) (env : PipelineEnv) : PAResult :=
  if st.buffer.isEmpty then ⟨st, false, [], none, []⟩
  else processAudio st env

/-- The guard acquisition attempt of lines 132-137: returns whether the
attempt succeeded together with the new flag value. -/
def tryAcquire (held : Bool) : Bool × Bool :=
  if held then (false, held) else (true, true)

/-- The `finally` release of line 259: unconditionally clears the flag. -/
def releaseGuard (_held : Bool) : Bool := false

/-- Events on one connection's guard: an acquisition attempt (a
`process_audio` invocation reaching lines 132-137) or the completion of a
pipeline execution (the `finally` of line 259). -/
inductive GuardEvent
  | attempt
  | finish
deriving Repr, DecidableEq

/-- Guard flag together with the number of pipeline executions currently
in flight. -/
structure GuardTrace where
  held : Bool
  inFlight : Nat
deriving Repr, DecidableEq

/-- One guard event: a successful acquisition starts a pipeline execution,
a failed one changes nothing, completion releases the flag. -/
def guardStep : GuardTrace → GuardEvent → GuardTrace
  | g, .attempt => if g.held then g else ⟨true, g.inFlight + 1⟩
  | g, .finish => ⟨false, g.inFlight - 1⟩

/-- Run a sequence of guard events from the released state. -/
def guardRun (events : List GuardEvent) : GuardTrace :=
  events.foldl guardStep ⟨false, 0⟩

/-- A fixed benign environment used by concrete counterexamples: all
collaborators succeed. -/
def envStub : PipelineEnv :=
  ⟨true, (some "hello", some "hi-IN"), "hi there", "translated", some "QQ==", true, true,
    [1, 2, 3]⟩

/-- Environment in which the transcript comes back in the pipeline's
default source language `"en-IN"`. -/
def envC4 : PipelineEnv :=
  ⟨true, (some "hello", some "en-IN"), "hi there", "namaste", some "QQ==", true, true, [9]⟩

/-- Environment in which the transcription call fails:
`transcribe_and_translate_audio` catches the error and returns
`(None, None)`. -/
def envFailTranscribe : PipelineEnv :=
  ⟨true, (none, none), "hi there", "translated", some "QQ==", true, true, [1, 2, 3]⟩

/-- The loop body never fires on an empty byte string. -/
theorem chunkLoop_nil (fuel : Nat) : chunkLoop fuel [] = [] := by
  cases fuel <;> rfl

/-- Unfolding of one loop iteration. -/
theorem chunkLoop_cons (n : Nat) (b : Nat) (rest : List Nat) :
    chunkLoop (n + 1) (b :: rest) =
      (b :: rest).take 640 :: chunkLoop n ((b :: rest).drop 640) := rfl

/-- The tail of an iteration fits in the remaining fuel. -/
theorem drop_length_le (n : Nat) (b : Nat) (rest : List Nat)
    (h : (b :: rest).length ≤ n + 1) : ((b :: rest).drop 640).length ≤ n := by
  rw [List.length_drop]
  simp only [List.length_cons] at h ⊢
  omega

/-- With sufficient fuel, a non-empty byte string yields at least one
frame. -/
theorem chunkLoop_ne_nil (fuel : Nat) (bs : List Nat) (h : bs.length ≤ fuel)
    (hne : bs ≠ []) : chunkLoop fuel bs ≠ [] := by
  match bs, fuel with
  | [], _ => exact absurd rfl hne
  | b :: rest, 0 => simp at h
  | b :: rest, n + 1 => rw [chunkLoop_cons]; exact List.cons_ne_nil _ _

/-- The recursive call returns no frames exactly when at most 640 bytes
remained. -/
theorem chunkLoop_tail_nil_iff (n : Nat) (b : Nat) (rest : List Nat)
    (h : (b :: rest).length ≤ n + 1) :
    chunkLoop n ((b :: rest).drop 640) = [] ↔ (b :: rest).length ≤ 640 := by
  constructor
  · intro hnil
    by_contra hlong
    push_neg at hlong
    have hdrop : (b :: rest).drop 640 ≠ [] := by
      intro hd
      have h0 : (b :: rest).length - 640 = 0 := by
        rw [← List.length_drop 640, hd]
        rfl
      omega
    exact chunkLoop_ne_nil n _ (drop_length_le n b rest h) hdrop hnil
  · intro hshort
    have : (b :: rest).drop 640 = [] := by
      apply List.drop_eq_nil_of_le
      omega
    rw [this, chunkLoop_nil]

/-- Concatenating the frames reproduces the input bytes. -/
theorem chunkLoop_flatten (fuel : Nat) (bs : List Nat) (h : bs.length ≤ fuel) :
    (chunkLoop fuel bs).flatten = bs := by
  induction fuel generalizing bs with
  | zero =>
    have : bs = [] := List.length_eq_zero.mp (Nat.le_zero.mp h)
    simp [this, chunkLoop_nil]
  | succ n ih =>
    match bs with
    | [] => simp [chunkLoop_nil]
    | b :: rest =>
      rw [chunkLoop_cons, List.flatten_cons, ih _ (drop_length_le n b rest h),
        List.take_append_drop]

/-- The number of frames is the ceiling of the byte count over 640. -/
theorem chunkLoop_length (fuel : Nat) (bs : List Nat) (h : bs.length ≤ fuel) :
    (chunkLoop fuel bs).length = (bs.length + 639) / 640 := by
  induction fuel generalizing bs with
  | zero =>
    have : bs = [] := List.length_eq_zero.mp (Nat.le_zero.mp h)
    simp [this, chunkLoop_nil]
  | succ n ih =>
    match bs with
    | [] => simp [chunkLoop_nil]
    | b :: rest =>
      rw [chunkLoop_cons, List.length_cons, ih _ (drop_length_le n b rest h),
        List.length_drop]
      simp only [List.length_cons]
      omega

/-- Every frame except the last holds exactly 640 bytes. -/
theorem chunkLoop_dropLast (fuel : Nat) (bs : List Nat) (h : bs.length ≤ fuel) :
    ∀ c ∈ (chunkLoop fuel bs).dropLast, c.length = 640 := by
  induction fuel generalizing bs with
  | zero =>
    have : bs = [] := List.length_eq_zero.mp (Nat.le_zero.mp h)
    simp [this, chunkLoop_nil]
  | succ n ih =>
    match bs with
    | [] => simp [chunkLoop_nil]
    | b :: rest =>
      intro c hc
      rw [chunkLoop_cons] at hc
      by_cases hrest : chunkLoop n ((b :: rest).drop 640) = []
      · rw [hrest] at hc
        simp at hc
      · rw [List.dropLast_cons_of_ne_nil hrest] at hc
        rcases List.mem_cons.mp hc with hc | hc
        · have hlong : ¬(b :: rest).length ≤ 640 := by
            intro hshort
            exact hrest ((chunkLoop_tail_nil_iff n b rest h).mpr hshort)
          subst hc
          rw [List.length_take]
          simp only [List.length_cons] at hlong ⊢
          omega
        · exact ih _ (drop_length_le n b rest h) c hc

/-- The last frame holds exactly the remaining bytes. -/
theorem chunkLoop_last (fuel : Nat) (bs : List Nat) (h : bs.length ≤ fuel) :
    ∀ c, (chunkLoop fuel bs).getLast? = some c →
      c.length = bs.length - 640 * ((chunkLoop fuel bs).length - 1) := by
  induction fuel generalizing bs with
  | zero =>
    have : bs = [] := List.length_eq_zero.mp (Nat.le_zero.mp h)
    simp [this, chunkLoop_nil]
  | succ n ih =>
    match bs with
    | [] => simp [chunkLoop_nil]
    | b :: rest =>
      intro c hc
      rw [chunkLoop_cons] at hc ⊢
      by_cases hrest : chunkLoop n ((b :: rest).drop 640) = []
      · rw [hrest] at hc ⊢
        simp only [List.getLast?_singleton, Option.some.injEq] at hc
        have hshort : (b :: rest).length ≤ 640 :=
          (chunkLoop_tail_nil_iff n b rest h).mp hrest
        subst hc
        rw [List.length_take]
        simp only [List.length_singleton]
        omega
      · obtain ⟨t, ts, hts⟩ := List.exists_cons_of_ne_nil hrest
        rw [hts, List.getLast?_cons_cons, ← hts] at hc
        have hrec := ih _ (drop_length_le n b rest h) c hc
        rw [List.length_drop] at hrec
        have hpos : 0 < (chunkLoop n ((b :: rest).drop 640)).length :=
          List.length_pos.mpr hrest
        have hlong : ¬(b :: rest).length ≤ 640 := by
          intro hshort
          exact hrest ((chunkLoop_tail_nil_iff n b rest h).mpr hshort)
        simp only [List.length_cons] at h hrec hlong ⊢
        omega

/-- The PCM payload is two bytes per sample. -/
theorem samplesToBytes_length (pcm : List Int) :
    (samplesToBytes pcm).length = 2 * pcm.length := by
  induction pcm with
  | nil => simp [samplesToBytes]
  | cons s rest ih => simp [samplesToBytes, ih]; ring

/-- Serialising then parsing 16-bit samples is the identity on in-range
samples. -/
theorem bytesToSamples_samplesToBytes (pcm : List Int)
    (h : ∀ s ∈ pcm, -32768 ≤ s ∧ s < 32768) :
    bytesToSamples (samplesToBytes pcm) = pcm := by
  induction pcm with
  | nil => simp [samplesToBytes, bytesToSamples]
  | cons s rest ih =>
    have hs := h s (List.mem_cons_self s rest)
    have hrest : ∀ x ∈ rest, -32768 ≤ x ∧ x < 32768 :=
      fun x hx => h x (List.mem_cons_of_mem s hx)
    simp only [samplesToBytes, bytesToSamples, ih hrest, List.cons.injEq, and_true]
    omega

/-- The single-flight invariant: the in-flight count is 1 exactly while
the guard is held. -/
def guardInv (g : GuardTrace) : Prop :=
  g.inFlight = if g.held then 1 else 0

/-- Each guard event preserves the single-flight invariant. -/
theorem guardStep_inv (g : GuardTrace) (e : GuardEvent) (h : guardInv g) :
    guardInv (guardStep g e) := by
  cases e with
  | attempt =>
    by_cases hg : g.held
    · simpa [guardStep, hg] using h
    · simp [guardStep, hg, guardInv] at h ⊢
      omega
  | finish =>
    by_cases hg : g.held <;> simp [guardStep, hg, guardInv] at h ⊢ <;> omega

/-- Any event sequence from the released state keeps the invariant. -/
theorem guardRun_inv (events : List GuardEvent) : guardInv (guardRun events) := by
  have key : ∀ g, guardInv g → guardInv (events.foldl guardStep g) := by
    induction events with
    | nil => intro g h; exact h
    | cons e es ih => intro g h; exact ih _ (guardStep_inv g e h)
  exact key ⟨false, 0⟩ rfl

/-- C1: an utterance is judged ready for processing exactly when
`speechDuration = now - speechStart` is at least 1000 ms and
(`silenceDuration = now - lastSpeech` is at least 1000 ms or
`speechDuration` is at least 15000 ms); in every other state, including
the absence of any speech state, the readiness check returns false. -/
theorem claim_C1_readiness (state : Option SpeechState) (now : ℚ) :
    should_process_speech state now = true ↔
      ∃ s, state = some s ∧ 1000 ≤ now - s.speechStart ∧
        (1000 ≤ now - s.lastSpeech ∨ 15000 ≤ now - s.speechStart) := by
  cases state with
  | none => simp [should_process_speech]
  | some s =>
    simp only [should_process_speech, MIN_SPEECH_DURATION_MS, SILENCE_DURATION_MS,
      MAX_SPEECH_DURATION_MS, ge_iff_le, Option.some.injEq]
    constructor
    · intro h
      split_ifs at h with h1 h2
      exact ⟨s, rfl, h1, h2⟩
    · rintro ⟨s1, hs1, h1, h2⟩
      cases hs1
      rw [if_pos h1, if_pos h2]

/-- C2: for every non-empty mu-law payload of length N, the outbound
framer produces exactly `ceil(N/640) = (N + 639) / 640` frames, every
frame except possibly the last is exactly 640 bytes, the last holds the
remaining `N - 640 * (frames - 1)` bytes, and concatenating the frame
payloads in order reproduces the original N bytes. -/
theorem claim_C2_outbound_framer (bs : List Nat) (hne : bs ≠ []) :
    (outboundChunks bs).length = (bs.length + 639) / 640 ∧
    (∀ c ∈ (outboundChunks bs).dropLast, c.length = 640) ∧
    (∀ c, (outboundChunks bs).getLast? = some c →
      c.length = bs.length - 640 * ((outboundChunks bs).length - 1)) ∧
    (outboundChunks bs).flatten = bs :=
  ⟨chunkLoop_length _ _ le_rfl, chunkLoop_dropLast _ _ le_rfl,
   chunkLoop_last _ _ le_rfl, chunkLoop_flatten _ _ le_rfl⟩

/-- Witness for C2 at the concrete payload `[1, 2, 3]`. -/
theorem claim_C2_outbound_framer_witness :
    ([1, 2, 3] : List Nat) ≠ [] ∧
    ((outboundChunks [1, 2, 3]).length = (([1, 2, 3] : List Nat).length + 639) / 640 ∧
     (∀ c ∈ (outboundChunks [1, 2, 3]).dropLast, c.length = 640) ∧
     (∀ c, (outboundChunks [1, 2, 3]).getLast? = some c →
       c.length = ([1, 2, 3] : List Nat).length - 640 * ((outboundChunks [1, 2, 3]).length - 1)) ∧
     (outboundChunks [1, 2, 3]).flatten = [1, 2, 3]) :=
  ⟨by decide, claim_C2_outbound_framer [1, 2, 3] (by decide)⟩

/-- C3: from the released guard state, two acquisition attempts before any
release yield exactly one success; after a release a subsequent attempt
succeeds; and along every event sequence at most one pipeline execution is
in flight. -/
theorem claim_C3_processing_guard :
    (tryAcquire false).1 = true ∧
    (tryAcquire (tryAcquire false).2).1 = false ∧
    (tryAcquire (releaseGuard (tryAcquire false).2)).1 = true ∧
    ∀ events : List GuardEvent, (guardRun events).inFlight ≤ 1 := by
  refine ⟨rfl, rfl, rfl, fun events => ?_⟩
  have h := guardRun_inv events
  unfold guardInv at h
  split_ifs at h <;> omega

/-- C8 counterexample: the mu-law byte 0x7F (negative zero) decodes to
sample 0, which re-encodes to 0xFF, not 0x7F — refuting the claim that
`encodeMuLaw(decodeMuLaw(x)) = x` holds for every valid mu-law byte. -/
theorem claim_C8_counterexample :
    decodeMuLawSample 127 = 0 ∧
    encodeMuLawSample (decodeMuLawSample 127) = 255 ∧ (255 : Nat) ≠ 127 := by
  decide

set_option maxRecDepth 8000 in
/-- C8 amended: `encodeMuLaw(decodeMuLaw(x)) = x` for every valid mu-law
byte except 0x7F, the negative-zero code, which shares decoded value 0
with 0xFF and re-encodes as 0xFF. -/
theorem claim_C8_mulaw_roundtrip :
    (∀ b : Fin 256, b.val ≠ 127 → encodeMuLawSample (decodeMuLawSample b.val) = b.val) ∧
    encodeMuLawSample (decodeMuLawSample 127) = 255 := by
  constructor
  · decide
  · decide

/-- Witness for C8 at the concrete byte 0x80. -/
theorem claim_C8_mulaw_roundtrip_witness :
    encodeMuLawSample (decodeMuLawSample 128) = 128 :=
  claim_C8_mulaw_roundtrip.1 128 (by decide)

/-- C9: wrapping a non-empty in-range 16-bit PCM sample sequence as a
mono, 2-byte, 8000 Hz WAV container and parsing it back returns exactly
the original samples and parameters.  The byte count must fit the 32-bit
RIFF size fields, as any realisable container's does. -/
theorem claim_C9_wav_roundtrip (pcm : List Int) (hne : pcm ≠ [])
    (hrange : ∀ s ∈ pcm, -32768 ≤ s ∧ s < 32768)
    (hlen : 2 * pcm.length < 4294967296) :
    unwrapWav (wrapAsWav pcm 1 2 8000) = some (pcm, 1, 2, 8000) := by
  have hdl := samplesToBytes_length pcm
  set data := samplesToBytes pcm with hdata
  simp only [wrapAsWav, le4, le2, ← hdata]
  norm_num
  simp [unwrapWav, expectBytes, read2, read4, Option.bind]
  have h1 : data.length % 256 + 256 * (data.length / 256 % 256) +
      65536 * (data.length / 65536 % 256) +
      16777216 * (data.length / 16777216 % 256) = data.length := by omega
  rw [h1]
  have h2 : data.length / 2 * 2 = data.length := by omega
  rw [h2, List.take_length]
  exact bytesToSamples_samplesToBytes pcm hrange

/-- Witness for C9 at a concrete four-sample sequence. -/
theorem claim_C9_wav_roundtrip_witness :
    unwrapWav (wrapAsWav [1000, -1000, 32767, -32768] 1 2 8000) =
      some ([1000, -1000, 32767, -32768], 1, 2, 8000) :=
  claim_C9_wav_roundtrip [1000, -1000, 32767, -32768] (by decide) (by decide) (by decide)

/-- A non-empty buffer is not `isEmpty`. -/
theorem buffer_isEmpty_false (st : ConnState) (hne : st.buffer ≠ []) :
    st.buffer.isEmpty = false := by
  cases hbuf : st.buffer with
  | nil => exact absurd hbuf hne
  | cons a l => rfl

/-- A `process_audio` invocation while the guard is held returns at once:
no acquisition, no calls, no frames, state untouched. -/
theorem processAudio_locked (st : ConnState) (env : PipelineEnv) (h : st.lock = true) :
    processAudio st env = ⟨st, false, [], none, []⟩ := by
  simp [processAudio, h]

/-- A `process_audio` invocation on a buffer whose computed duration is
below the minimum (which covers the empty buffer) acquires and releases
the guard and returns without touching buffer or speech state. -/
theorem processAudio_below_min (st : ConnState) (env : PipelineEnv)
    (hlock : st.lock = false)
    (hdur : get_audio_duration_ms st.buffer < MIN_SPEECH_DURATION_MS) :
    processAudio st env = ⟨⟨st.buffer, st.speech, false⟩, true, [], none, []⟩ := by
  by_cases hb : st.buffer.isEmpty
  · simp [processAudio, hlock, hb]
  · simp [processAudio, hlock, hb, hdur]

/-- When the conversion or debug-save step raises, the handler at lines
248-253 preserves the buffer below the 15 s cap and clears it at or above
the cap. -/
theorem processAudio_convert_failure (st : ConnState) (env : PipelineEnv)
    (hlock : st.lock = false) (hne : st.buffer ≠ [])
    (hdur : MIN_SPEECH_DURATION_MS ≤ get_audio_duration_ms st.buffer)
    (hconv : env.convertOk = false) :
    processAudio st env =
      if MAX_SPEECH_DURATION_MS ≤ get_audio_duration_ms st.buffer then
        ⟨⟨[], none, false⟩, true, [], none, []⟩
      else ⟨⟨st.buffer, st.speech, false⟩, true, [], none, []⟩ := by
  have hb := buffer_isEmpty_false st hne
  simp [processAudio, hlock, hb, not_lt.mpr hdur, hconv, ge_iff_le]

/-- Past the guard, the emptiness check, the duration check and the
conversion step, `process_audio` behaves as the cleared pipeline run. -/
theorem processAudio_run (st : ConnState) (env : PipelineEnv)
    (hlock : st.lock = false) (hne : st.buffer ≠ [])
    (hdur : MIN_SPEECH_DURATION_MS ≤ get_audio_duration_ms st.buffer)
    (hconv : env.convertOk = true) :
    processAudio st env = pipelineTail env := by
  have hb := buffer_isEmpty_false st hne
  simp [processAudio, hlock, hb, not_lt.mpr hdur, hconv]

/-- Every cleared pipeline run ends with empty buffer, no speech state and
a released guard, and reports the acquisition. -/
theorem pipelineTail_state (env : PipelineEnv) :
    (pipelineTail env).state = ⟨[], none, false⟩ ∧ (pipelineTail env).acquired = true := by
  rcases htr : env.transcribeResult with ⟨_ | s, lang⟩
  · simp [pipelineTail, htr]
  · cases htts : env.ttsResult <;>
      simp only [pipelineTail, htr, htts] <;> split_ifs <;> simp

/-- Every cleared pipeline run makes the transcription call. -/
theorem pipelineTail_transcribe (env : PipelineEnv) :
    ExtCall.transcribe ∈ (pipelineTail env).calls := by
  rcases htr : env.transcribeResult with ⟨_ | s, lang⟩
  · simp [pipelineTail, htr]
  · cases htts : env.ttsResult <;>
      simp only [pipelineTail, htr, htts] <;> split_ifs <;> simp

/-- C4, code bug: in every pipeline run that reaches the response step
with the detected language equal to the default source language `"en-IN"`,
the external translate call is still made and the text handed to speech
synthesis is the translation result, not the chat reply — the condition at
line 179, `original_language != "en-IN" or original_language is not None`,
is true for every non-null language, so the documented "translate only if
needed" behaviour (and its `translated_response = english_response` else
branch) is unreachable. -/
theorem claim_C4_translate_condition_bug (st : ConnState) (env : PipelineEnv)
    (hlock : st.lock = false) (hne : st.buffer ≠ [])
    (hdur : MIN_SPEECH_DURATION_MS ≤ get_audio_duration_ms st.buffer)
    (hconv : env.convertOk = true)
    (htr : env.transcribeResult = (some "hello", some "en-IN")) :
    ExtCall.translate ∈ (processAudio st env).calls ∧
    (processAudio st env).ttsText = some env.translateResult := by
  rw [processAudio_run st env hlock hne hdur hconv]
  have hs : pyStrip "hello" ≠ "" := by decide
  cases htts : env.ttsResult <;>
    simp only [pipelineTail, htr, htts] <;> split_ifs <;> simp_all

/-- Witness for C4 at a concrete state and environment. -/
theorem claim_C4_translate_condition_bug_witness :
    ExtCall.translate ∈
      (processAudio ⟨[List.replicate 16000 5], some ⟨0, 0⟩, false⟩ envC4).calls ∧
    (processAudio ⟨[List.replicate 16000 5], some ⟨0, 0⟩, false⟩ envC4).ttsText =
      some "namaste" :=
  claim_C4_translate_condition_bug ⟨[List.replicate 16000 5], some ⟨0, 0⟩, false⟩ envC4
    rfl (by decide)
    (by norm_num [get_audio_duration_ms, MIN_SPEECH_DURATION_MS, SAMPLES_PER_MS])
    rfl rfl

/-- C5 counterexample: a run whose transcription call fails (the service
wrapper returns `(None, None)`) on a buffer of computed duration 2000 ms,
well below the 15000 ms cap — yet buffer and speech state end up cleared,
because lines 160-162 clear them before any external call is made. -/
theorem claim_C5_counterexample :
    (processAudio ⟨[List.replicate 32000 5], some ⟨0, 0⟩, false⟩ envFailTranscribe).calls =
      [ExtCall.transcribe] ∧
    get_audio_duration_ms [List.replicate 32000 5] < MAX_SPEECH_DURATION_MS ∧
    (processAudio ⟨[List.replicate 32000 5], some ⟨0, 0⟩, false⟩
      envFailTranscribe).state.buffer = [] ∧
    (processAudio ⟨[List.replicate 32000 5], some ⟨0, 0⟩, false⟩
      envFailTranscribe).state.speech = none := by
  refine ⟨?_, ?_, ?_, ?_⟩ <;>
    norm_num [processAudio, pipelineTail, envFailTranscribe, get_audio_duration_ms,
      MIN_SPEECH_DURATION_MS, MAX_SPEECH_DURATION_MS, SAMPLES_PER_MS]

/-- C5 amended: failures of the transcription or synthesis calls abandon
the utterance with no playback, but the buffer and speech state were
already cleared before the first external call, regardless of duration
(the service wrappers catch their own errors, so the handler at lines
248-253 never sees them); that handler's preservation — buffer kept
below the 15 s cap, cleared at or above it — applies only to failures
before the clearing point, i.e. the WAV conversion and debug save. -/
theorem claim_C5_error_handling (st : ConnState) (env : PipelineEnv)
    (hlock : st.lock = false) (hne : st.buffer ≠ [])
    (hdur : MIN_SPEECH_DURATION_MS ≤ get_audio_duration_ms st.buffer) :
    (env.convertOk = true → env.transcribeResult.1 = none →
      (processAudio st env).frames = [] ∧
      (processAudio st env).calls = [ExtCall.transcribe] ∧
      (processAudio st env).state.buffer = [] ∧
      (processAudio st env).state.speech = none) ∧
    (env.convertOk = true → env.ttsResult = none →
      (processAudio st env).frames = [] ∧
      (processAudio st env).state.buffer = [] ∧
      (processAudio st env).state.speech = none) ∧
    (env.convertOk = false → get_audio_duration_ms st.buffer < MAX_SPEECH_DURATION_MS →
      (processAudio st env).state.buffer = st.buffer ∧
      (processAudio st env).state.speech = st.speech ∧
      (processAudio st env).calls = [] ∧
      (processAudio st env).frames = []) ∧
    (env.convertOk = false → MAX_SPEECH_DURATION_MS ≤ get_audio_duration_ms st.buffer →
      (processAudio st env).state.buffer = [] ∧
      (processAudio st env).state.speech = none) := by
  refine ⟨?_, ?_, ?_, ?_⟩
  · intro hconv htr1
    rw [processAudio_run st env hlock hne hdur hconv]
    rcases htr : env.transcribeResult with ⟨t, lang⟩
    rw [htr] at htr1
    simp only at htr1
    subst htr1
    simp [pipelineTail, htr]
  · intro hconv htts
    rw [processAudio_run st env hlock hne hdur hconv]
    rcases htr : env.transcribeResult with ⟨_ | s, lang⟩
    · simp [pipelineTail, htr]
    · simp only [pipelineTail, htr, htts]
      split_ifs <;> simp
  · intro hconv hmax
    rw [processAudio_convert_failure st env hlock hne hdur hconv,
      if_neg (not_le.mpr hmax)]
    exact ⟨rfl, rfl, rfl, rfl⟩
  · intro hconv hmax
    rw [processAudio_convert_failure st env hlock hne hdur hconv, if_pos hmax]
    exact ⟨rfl, rfl⟩

/-- Witness for C5 at concrete states and environments. -/
theorem claim_C5_error_handling_witness :
    ((processAudio ⟨[List.replicate 32000 5], some ⟨0, 0⟩, false⟩
        envFailTranscribe).frames = [] ∧
      (processAudio ⟨[List.replicate 32000 5], some ⟨0, 0⟩, false⟩
        envFailTranscribe).calls = [ExtCall.transcribe] ∧
      (processAudio ⟨[List.replicate 32000 5], some ⟨0, 0⟩, false⟩
        envFailTranscribe).state.buffer = [] ∧
      (processAudio ⟨[List.replicate 32000 5], some ⟨0, 0⟩, false⟩
        envFailTranscribe).state.speech = none) :=
  (claim_C5_error_handling ⟨[List.replicate 32000 5], some ⟨0, 0⟩, false⟩
      envFailTranscribe rfl (by decide)
      (by norm_num [get_audio_duration_ms, MIN_SPEECH_DURATION_MS, SAMPLES_PER_MS])).1
    rfl rfl

/-- C6 counterexample: a silent frame arrives while the guard is held, on
a connection whose speech state (`speechStart = lastSpeech = 0`) is ready
at `now = 2000` (speech duration 2000 ms, silence duration 2000 ms); the
pipeline invocation is deferred by the guard and neither the buffer nor
the speech state is cleared — the frame is simply appended. -/
theorem claim_C6_counterexample :
    should_process_speech (some ⟨0, 0⟩) 2000 = true ∧
    (handleMediaFrame ⟨[[1]], some ⟨0, 0⟩, true⟩ [2] true 2000 envStub).acquired = false ∧
    (handleMediaFrame ⟨[[1]], some ⟨0, 0⟩, true⟩ [2] true 2000 envStub).state.buffer =
      [[1], [2]] ∧
    (handleMediaFrame ⟨[[1]], some ⟨0, 0⟩, true⟩ [2] true 2000 envStub).state.speech =
      some ⟨0, 0⟩ := by
  norm_num [handleMediaFrame, should_process_speech, processAudio, envStub,
    MIN_SPEECH_DURATION_MS, MAX_SPEECH_DURATION_MS, SILENCE_DURATION_MS]

/-- C6 amended: buffer and speech state are cleared when the pipeline
invocation actually proceeds — guard free, buffer non-empty, computed
duration at least 1000 ms, conversion succeeding; when the invocation is
deferred because the guard is already held, the state is returned
untouched and nothing is cleared. -/
theorem claim_C6_buffer_clearing (st : ConnState) (env : PipelineEnv) :
    (st.lock = true → processAudio st env = ⟨st, false, [], none, []⟩) ∧
    (st.lock = false → st.buffer ≠ [] →
      MIN_SPEECH_DURATION_MS ≤ get_audio_duration_ms st.buffer → env.convertOk = true →
      (processAudio st env).state.buffer = [] ∧
      (processAudio st env).state.speech = none) := by
  constructor
  · intro h
    exact processAudio_locked st env h
  · intro hlock hne hdur hconv
    rw [processAudio_run st env hlock hne hdur hconv]
    rw [(pipelineTail_state env).1]
    exact ⟨rfl, rfl⟩

/-- Witness for C6 at concrete states: a deferred invocation and a
completed one. -/
theorem claim_C6_buffer_clearing_witness :
    processAudio ⟨[[1]], some ⟨0, 0⟩, true⟩ envStub =
      ⟨⟨[[1]], some ⟨0, 0⟩, true⟩, false, [], none, []⟩ ∧
    ((processAudio ⟨[List.replicate 16000 5], some ⟨0, 0⟩, false⟩ envStub).state.buffer = [] ∧
     (processAudio ⟨[List.replicate 16000 5], some ⟨0, 0⟩, false⟩ envStub).state.speech =
       none) :=
  ⟨(claim_C6_buffer_clearing ⟨[[1]], some ⟨0, 0⟩, true⟩ envStub).1 rfl,
   (claim_C6_buffer_clearing ⟨[List.replicate 16000 5], some ⟨0, 0⟩, false⟩ envStub).2 rfl
     (by decide)
     (by norm_num [get_audio_duration_ms, MIN_SPEECH_DURATION_MS, SAMPLES_PER_MS]) rfl⟩

/-- C7 counterexample: a stop event on a connection holding a single
1-byte frame (computed duration 1/16 ms) does not flush the buffer into
the pipeline: no external call is made, no frame sent, the buffer is left
in place — the 1000 ms minimum check inside `process_audio` still
applies. -/
theorem claim_C7_counterexample :
    (⟨[[1]], none, false⟩ : ConnState).buffer ≠ [] ∧
    (handleStop ⟨[[1]], none, false⟩ envStub).calls = [] ∧
    (handleStop ⟨[[1]], none, false⟩ envStub).frames = [] ∧
    (handleStop ⟨[[1]], none, false⟩ envStub).state.buffer = [[1]] := by
  norm_num [handleStop, processAudio, envStub, get_audio_duration_ms,
    MIN_SPEECH_DURATION_MS, SAMPLES_PER_MS]

/-- C7 amended: the stop event invokes `process_audio` on any non-empty
buffer without consulting the speech-state readiness check (so the 1000
ms silence threshold is indeed bypassed), but the pipeline still applies
its own minimum: buffers whose computed duration is below 1000 ms (fewer
than 16000 buffered bytes) are left unflushed, with no external call and
no outbound frame. -/
theorem claim_C7_stop_flush (st : ConnState) (env : PipelineEnv) (hne : st.buffer ≠ []) :
    handleStop st env = processAudio st env ∧
    (st.lock = false → MIN_SPEECH_DURATION_MS ≤ get_audio_duration_ms st.buffer →
      env.convertOk = true →
      (handleStop st env).state.buffer = [] ∧
      ExtCall.transcribe ∈ (handleStop st env).calls) ∧
    (st.lock = false → get_audio_duration_ms st.buffer < MIN_SPEECH_DURATION_MS →
      (handleStop st env).state.buffer = st.buffer ∧
      (handleStop st env).calls = [] ∧
      (handleStop st env).frames = []) := by
  have hstop : handleStop st env = processAudio st env := by
    simp [handleStop, buffer_isEmpty_false st hne]
  refine ⟨hstop, ?_, ?_⟩
  · intro hlock hdur hconv
    rw [hstop, processAudio_run st env hlock hne hdur hconv]
    refine ⟨?_, pipelineTail_transcribe env⟩
    rw [(pipelineTail_state env).1]
  · intro hlock hdur
    rw [hstop, processAudio_below_min st env hlock hdur]
    exact ⟨rfl, rfl, rfl⟩

/-- Witness for C7 at concrete states: a flushed stop and a below-minimum
stop. -/
theorem claim_C7_stop_flush_witness :
    (handleStop ⟨[List.replicate 16000 5], none, false⟩ envStub).state.buffer = [] ∧
    (handleStop ⟨[[1]], none, false⟩ envStub).state.buffer = [[1]] :=
  ⟨((claim_C7_stop_flush ⟨[List.replicate 16000 5], none, false⟩ envStub (by decide)).2.1
      rfl (by norm_num [get_audio_duration_ms, MIN_SPEECH_DURATION_MS, SAMPLES_PER_MS])
      rfl).1,
   ((claim_C7_stop_flush ⟨[[1]], none, false⟩ envStub (by decide)).2.2
      rfl (by norm_num [get_audio_duration_ms, MIN_SPEECH_DURATION_MS, SAMPLES_PER_MS])).1⟩

/-- C10: the buffer-duration helper returns `(total bytes / 2) / 8`
milliseconds — half the real duration `total bytes / 8` of 8 kHz
one-byte-per-sample mu-law audio — so every buffer totalling fewer than
16000 bytes (two seconds of real audio) makes the pipeline return right
after acquiring and releasing the guard: buffer and speech state
untouched, no external call, no outbound frame. -/
theorem claim_C10_duration_helper (st : ConnState) (env : PipelineEnv)
    (hlock : st.lock = false)
    (hshort : (st.buffer.map List.length).sum < 16000) :
    get_audio_duration_ms st.buffer = (((st.buffer.map List.length).sum : ℚ) / 2) / 8 ∧
    2 * get_audio_duration_ms st.buffer = ((st.buffer.map List.length).sum : ℚ) / 8 ∧
    (processAudio st env).acquired = true ∧
    (processAudio st env).state.buffer = st.buffer ∧
    (processAudio st env).state.speech = st.speech ∧
    (processAudio st env).state.lock = false ∧
    (processAudio st env).calls = [] ∧
    (processAudio st env).frames = [] := by
  have hdur : get_audio_duration_ms st.buffer < MIN_SPEECH_DURATION_MS := by
    unfold get_audio_duration_ms MIN_SPEECH_DURATION_MS SAMPLES_PER_MS
    rw [div_div, div_lt_iff₀ (by norm_num)]
    have h16 : ((List.map List.length st.buffer).sum : ℚ) < 16000 := by
      exact_mod_cast hshort
    linarith
  rw [processAudio_below_min st env hlock hdur]
  refine ⟨rfl, ?_, rfl, rfl, rfl, rfl, rfl, rfl⟩
  unfold get_audio_duration_ms SAMPLES_PER_MS
  ring

/-- Witness for C10 at a concrete three-byte buffer. -/
theorem claim_C10_duration_helper_witness :
    get_audio_duration_ms [[1, 2], [3]] =
      ((([[1, 2], [3]].map List.length).sum : ℚ) / 2) / 8 ∧
    (processAudio ⟨[[1, 2], [3]], none, false⟩ envStub).state.buffer = [[1, 2], [3]] ∧
    (processAudio ⟨[[1, 2], [3]], none, false⟩ envStub).calls = [] :=
  ⟨(claim_C10_duration_helper ⟨[[1, 2], [3]], none, false⟩ envStub rfl (by decide)).1,
   (claim_C10_duration_helper ⟨[[1, 2], [3]], none, false⟩ envStub rfl (by decide)).2.2.2.1,
   (claim_C10_duration_helper ⟨[[1, 2], [3]], none, false⟩ envStub rfl (by decide)).2.2.2.2.2.2.1⟩
